import Mathlib

/-!
Shallow embedding of `rs-copier` (`src/main.rs`): a concurrent directory-tree
replicator.  Paths are lists of components; the filesystem is an association
list from paths to node kinds.  Fallible `tokio::fs` operations are modelled
with explicit fault-injection sets, and the `tokio` task pool of `main` is
linearized: a spawned `process_directory` task runs (and commits its
filesystem effects) at spawn time, and `JoinSet::join_next` hands back pending
results in FIFO order.  Ghost fields (`dispatched`, `merged`, `maxIn`) record
scheduling events without influencing behaviour.
-/

/-- A filesystem path, as its list of components below the filesystem root. -/
abbrev FsPath := List String

/-- The kind of a directory entry: a regular file, a directory, or any other
entry kind (symlink, device, ...) for which `file_type().is_file()` is false
and which is not a directory either. -/
inductive NodeKind
  | file
  | dir
  | other
deriving DecidableEq, Repr

/-- A filesystem: a finite association of paths to node kinds. -/
abbrev FS := List (FsPath × NodeKind)

/-- First binding of a path in the filesystem (`None` = no such entry). -/
def fsLookup : FS → FsPath → Option NodeKind
  | [], _ => none
  | e :: rest, p => if e.1 = p then some e.2 else fsLookup rest p

/-- Remove every binding of exactly path `p` (used by `remove_file`). -/
def fsErase : FS → FsPath → FS
  | [], _ => []
  | e :: rest, p => if e.1 = p then fsErase rest p else e :: fsErase rest p

/-- Remove every binding at `p` or below `p` (used by `remove_dir_all`). -/
def fsEraseTree : FS → FsPath → FS
  | [], _ => []
  | e :: rest, p => if p.isPrefixOf e.1 then fsEraseTree rest p else e :: fsEraseTree rest p

/-- Create or overwrite a regular file at `p` (the effect of `tokio::fs::copy`
on the destination, which overwrites). -/
def fsWrite (fs : FS) (p : FsPath) : FS :=
  fsErase fs p ++ [(p, NodeKind.file)]

/-- `childName p q = some n` iff `q = p ++ [n]`: `q` is a direct child of `p`. -/
def childName (p q : FsPath) : Option String :=
  match q.getLast? with
  | none => none
  | some n => if q.dropLast = p then some n else none

/-- The direct children of directory `p`, as `(name, kind)` pairs, in
filesystem order (the listing order of `read_dir` is unspecified). -/
def fsChildren : FS → FsPath → List (String × NodeKind)
  | [], _ => []
  | e :: rest, p =>
    match childName p e.1 with
    | some n => (n, e.2) :: fsChildren rest p
    | none => fsChildren rest p

/-- Fault injection for the fallible filesystem operations: each field lists
the argument paths on which the corresponding `tokio::fs` call fails. -/
structure Faults where
  readDirFails : List FsPath
  fileTypeFails : List FsPath
  copyFails : List FsPath
  removeFileFails : List FsPath
  removeDirAllFails : List FsPath
  createDirAllFails : List FsPath
deriving Repr

/-- The fault-free environment. -/
def noFaults : Faults := ⟨[], [], [], [], [], []⟩

/-- `tokio::fs::read_dir`: fails on an injected fault or when `p` is not a
directory; otherwise returns the listing snapshot. -/
def read_dir (flt : Faults) (fs : FS) (p : FsPath) : Option (List (String × NodeKind)) :=
  if flt.readDirFails.contains p then none
  else if fsLookup fs p = some NodeKind.dir then some (fsChildren fs p)
  else none

/-- The non-empty prefixes of `p`, shortest first. -/
def pathPrefixes (p : FsPath) : List FsPath :=
  (List.range p.length).map (fun i => p.take (i + 1))

/-- One step of `create_dir_all`: create directory `q` unless an entry is
already there. -/
def createStep (acc : FS) (q : FsPath) : FS :=
  if fsLookup acc q = none then acc ++ [(q, NodeKind.dir)] else acc

/-- The successful effect of `create_dir_all`: create `p` and every missing
ancestor as a directory; pre-existing entries are left alone (idempotent). -/
def createDirs (fs : FS) (p : FsPath) : FS :=
  (pathPrefixes p).foldl createStep fs

/-- `tokio::fs::create_dir_all`: fails on an injected fault (leaving the
filesystem unchanged), otherwise creates `p` and its missing ancestors. -/
def create_dir_all (flt : Faults) (fs : FS) (p : FsPath) : Option FS :=
  if flt.createDirAllFails.contains p then none else some (createDirs fs p)

/-- `tokio::fs::copy from to`: fails on an injected fault (leaving the
filesystem unchanged), otherwise writes the file at `to` (overwriting). -/
def copy (flt : Faults) (fs : FS) (src dst : FsPath) : Option FS :=
  if flt.copyFails.contains src then none else some (fsWrite fs dst)

/-- `tokio::fs::remove_file`. -/
def remove_file (flt : Faults) (fs : FS) (p : FsPath) : Option FS :=
  if flt.removeFileFails.contains p then none else some (fsErase fs p)

/-- `tokio::fs::remove_dir_all`. -/
def remove_dir_all (flt : Faults) (fs : FS) (p : FsPath) : Option FS :=
  if flt.removeDirAllFails.contains p then none else some (fsEraseTree fs p)

/-- The body of the `while let Some(path) = paths.next_entry()` loop of
`process_directory` (src/main.rs lines 24-49), acting on one listed entry.
State: the filesystem so far and the `directories` vector so far.
  * `file_type()` error: logged, entry skipped entirely;
  * regular file: copy to `dest.join(name)`; on copy error log and continue
    (source untouched); on success, if `remove_source`, remove the source
    file, logging (and keeping the file) on error;
  * every other entry: pushed onto `directories`. -/
def processEntry (flt : Faults) (source dest : FsPath) (remove_source : Bool)
    (acc : FS × List FsPath) (e : String × NodeKind) : FS × List FsPath :=
  if flt.fileTypeFails.contains (source ++ [e.1]) then acc
  else if e.2 = NodeKind.file then
    match copy flt acc.1 (source ++ [e.1]) (dest ++ [e.1]) with
    | none => acc
    | some fs1 =>
      if remove_source then
        match remove_file flt fs1 (source ++ [e.1]) with
        | none => (fs1, acc.2)
        | some fs2 => (fs2, acc.2)
      else (fs1, acc.2)
  else (acc.1, acc.2 ++ [source ++ [e.1]])

/-- `process_directory` (src/main.rs lines 19-51): list the source directory
(failure aborts, with `?`, before anything else), then create the destination
directory (failure also aborts, with `?`), then process each listed entry;
return the new filesystem and the `directories` vector.  `none` models an
`Err` return. -/
def process_directory (flt : Faults) (fs : FS) (source dest : FsPath)
    (remove_source : Bool) : Option (FS × List FsPath) :=
  match read_dir flt fs source with
  | none => none
  | some entries =>
    match create_dir_all flt fs dest with
    | none => none
    | some fs1 =>
      some (entries.foldl (processEntry flt source dest remove_source) (fs1, []))

/-- `dir.strip_prefix(&base)`: drop the leading `base` components; `none`
models the `Err` that `unwrap` would panic on. -/
def strip_prefix (base p : FsPath) : Option FsPath :=
  if base.isPrefixOf p then some (p.drop base.length) else none

/-- `base_dest.join(dir.strip_prefix(&base_source).unwrap())`
(src/main.rs line 133). -/
def map_dest (base_source base_dest dir : FsPath) : Option FsPath :=
  match strip_prefix base_source dir with
  | none => none
  | some rel => some (base_dest ++ rel)

/-- The state of `main`'s dispatch loop.  `dirs` is the `dirs` vector
(popped from the back, appended at the back); `inflight` is the `JoinSet`,
each element the pending result of a spawned task (`none` = the task
panicked, a `JoinError`).  `dispatched`, `merged` and `maxIn` are ghost
instrumentation: the tasks popped and spawned, the subdirectory lists merged
into `dirs` (seed list included), and the largest `JoinSet` size seen. -/
structure LoopState where
  fs : FS
  dirs : List FsPath
  inflight : List (Option (List FsPath))
  dispatched : List FsPath
  merged : List FsPath
  maxIn : Nat
deriving Repr, DecidableEq

/-- Spawn one `process_directory` task (linearized: it runs now, committing
its filesystem effects).  The second component is the pending `JoinSet`
result: `none` when the task's `unwrap` panicked (a future `JoinError`). -/
def spawnTask (flt : Faults) (fs : FS) (dir dest : FsPath) (delete_source : Bool) :
    FS × Option (List FsPath) :=
  match process_directory flt fs dir dest delete_source with
  | none => (fs, none)
  | some (fs1, subdirs) => (fs1, some subdirs)

/-- One iteration of `main`'s `while let Some(dir) = dirs.pop()` loop
(src/main.rs lines 132-151), on the already-popped `dir` (so `st.dirs` is the
rest of the queue): map the destination (an `unwrap` panic aborts the run),
spawn `process_directory` (linearized: it runs now), then, when the pool is
full (`set.len() >= batch`), join one pending result — merging its
subdirectory list into the queue, or only logging a `JoinError`. -/
def loopIter (flt : Faults) (base_source base_dest : FsPath) (delete_source : Bool)
    (batch : Nat) (st : LoopState) (dir : FsPath) : Option LoopState :=
  match map_dest base_source base_dest dir with
  | none => none
  | some dest =>
    match spawnTask flt st.fs dir dest delete_source with
    | (fs1, res) =>
      if (st.inflight ++ [res]).length ≥ batch then
        match (st.inflight ++ [res]).head? with
        | none =>
          some { fs := fs1, dirs := st.dirs, inflight := st.inflight ++ [res],
                 dispatched := st.dispatched, merged := st.merged,
                 maxIn := max st.maxIn (st.inflight ++ [res]).length }
        | some (some nd) =>
          some { fs := fs1, dirs := st.dirs ++ nd, inflight := (st.inflight ++ [res]).tail,
                 dispatched := st.dispatched ++ [dir], merged := st.merged ++ nd,
                 maxIn := max st.maxIn (st.inflight ++ [res]).length }
        | some none =>
          some { fs := fs1, dirs := st.dirs, inflight := (st.inflight ++ [res]).tail,
                 dispatched := st.dispatched ++ [dir], merged := st.merged,
                 maxIn := max st.maxIn (st.inflight ++ [res]).length }
      else
        some { fs := fs1, dirs := st.dirs, inflight := st.inflight ++ [res],
               dispatched := st.dispatched ++ [dir], merged := st.merged,
               maxIn := max st.maxIn (st.inflight ++ [res]).length }

/-- `main`'s dispatch loop, fuel-indexed: it exits (successfully) exactly when
`dirs` is empty, leaving whatever is still in `inflight` unjoined — as the
source loop does.  Fuel exhaustion yields `none`. -/
def mainLoop (flt : Faults) (base_source base_dest : FsPath) (delete_source : Bool)
    (batch : Nat) : Nat → LoopState → Option LoopState
  | 0, _ => none
  | Nat.succ fuel, st =>
    match st.dirs.getLast? with
    | none => some st
    | some dir =>
      match loopIter flt base_source base_dest delete_source batch
          { st with dirs := st.dirs.dropLast } dir with
      | none => none
      | some st2 => mainLoop flt base_source base_dest delete_source batch fuel st2

/-- The observable outcome of a completed run: the final filesystem plus the
ghost scheduling record (`leftover` = tasks still in the `JoinSet` when the
loop exited, whose results were dropped). -/
structure RunResult where
  fs : FS
  dispatched : List FsPath
  merged : List FsPath
  maxIn : Nat
  leftover : Nat
deriving Repr, DecidableEq

/-- `main` (src/main.rs lines 109-160): check the source exists (else `Err`),
seed with a synchronous `process_directory` on the roots (`?`), run the
dispatch loop, and finally — when `delete_source` — `remove_dir_all` the
source root, whose failure propagates with `?`.  `none` models a run that
terminates with a non-zero outcome (error or panic). -/
def runMain (flt : Faults) (fs0 : FS) (base_source base_dest : FsPath)
    (delete_source : Bool) (batch : Nat) (fuel : Nat) : Option RunResult :=
  if fsLookup fs0 base_source = none then none
  else
    match process_directory flt fs0 base_source base_dest delete_source with
    | none => none
    | some (fs1, dirs0) =>
      match mainLoop flt base_source base_dest delete_source batch fuel
          { fs := fs1, dirs := dirs0, inflight := [], dispatched := [],
            merged := dirs0, maxIn := 0 } with
      | none => none
      | some st =>
        match (if delete_source then remove_dir_all flt st.fs base_source else some st.fs) with
        | none => none
        | some fs2 =>
          some ⟨fs2, st.dispatched, st.merged, st.maxIn, st.inflight.length⟩

/-! ### Basic lemmas about the filesystem model -/

theorem fsLookup_append (l1 l2 : FS) (p : FsPath) :
    fsLookup (l1 ++ l2) p =
      (match fsLookup l1 p with | some v => some v | none => fsLookup l2 p) := by
  induction l1 with
  | nil => simp [fsLookup]
  | cons e rest ih =>
    by_cases h : e.1 = p <;> simp [fsLookup, h, ih]

theorem fsLookup_isSome_of_mem (fs : FS) (p : FsPath) (k : NodeKind)
    (h : (p, k) ∈ fs) : ∃ v, fsLookup fs p = some v := by
  induction fs with
  | nil => cases h
  | cons e rest ih =>
    by_cases he : e.1 = p
    · exact ⟨e.2, by simp [fsLookup, he]⟩
    · rcases List.mem_cons.mp h with h1 | h1
      · exact absurd (congrArg Prod.fst h1.symm) he
      · simpa [fsLookup, he] using ih h1

theorem fsLookup_fsErase_self (fs : FS) (p : FsPath) :
    fsLookup (fsErase fs p) p = none := by
  induction fs with
  | nil => rfl
  | cons e rest ih =>
    by_cases h : e.1 = p <;> simp [fsErase, fsLookup, h, ih]

theorem fsLookup_fsErase_ne (fs : FS) (p q : FsPath) (h : q ≠ p) :
    fsLookup (fsErase fs p) q = fsLookup fs q := by
  induction fs with
  | nil => rfl
  | cons e rest ih =>
    by_cases he : e.1 = p
    · have hq : ¬ e.1 = q := by rw [he]; exact fun hx => h hx.symm
      simp only [fsErase, fsLookup, if_pos he, if_neg hq]
      exact ih
    · simp only [fsErase, if_neg he]
      by_cases heq : e.1 = q
      · simp only [fsLookup, if_pos heq]
      · simp only [fsLookup, if_neg heq]
        exact ih

theorem fsLookup_fsWrite_ne (fs : FS) (p q : FsPath) (h : q ≠ p) :
    fsLookup (fsWrite fs p) q = fsLookup fs q := by
  unfold fsWrite
  rw [fsLookup_append, fsLookup_fsErase_ne fs p q h]
  cases hv : fsLookup fs q with
  | some v => rfl
  | none =>
    have hpq : ¬ p = q := fun hq => h hq.symm
    simp [fsLookup, hpq]

theorem fsLookup_fsWrite_self (fs : FS) (p : FsPath) :
    fsLookup (fsWrite fs p) p = some NodeKind.file := by
  unfold fsWrite
  rw [fsLookup_append, fsLookup_fsErase_self]
  simp [fsLookup]

theorem createFold_preserves (ps : List FsPath) (fs : FS) (q : FsPath) (v : NodeKind)
    (h : fsLookup fs q = some v) :
    fsLookup (ps.foldl createStep fs) q = some v := by
  induction ps generalizing fs with
  | nil => simpa using h
  | cons r rest ih =>
    rw [List.foldl_cons]
    apply ih
    unfold createStep
    by_cases hr : fsLookup fs r = none
    · rw [if_pos hr, fsLookup_append, h]
    · rw [if_neg hr]; exact h

theorem createDirs_preserves (fs : FS) (dest q : FsPath) (v : NodeKind)
    (h : fsLookup fs q = some v) :
    fsLookup (createDirs fs dest) q = some v :=
  createFold_preserves (pathPrefixes dest) fs q v h

theorem create_dir_all_ok (flt : Faults) (fs : FS) (p : FsPath)
    (h : p ∉ flt.createDirAllFails) :
    create_dir_all flt fs p = some (createDirs fs p) := by
  simp [create_dir_all, h]

theorem childName_eq (p q : FsPath) (n : String) (h : childName p q = some n) :
    q = p ++ [n] := by
  unfold childName at h
  cases hl : q.getLast? with
  | none => rw [hl] at h; cases h
  | some m =>
    rw [hl] at h
    have h3 : (if q.dropLast = p then some m else none) = some n := h
    by_cases hd : q.dropLast = p
    · rw [if_pos hd] at h3
      have hmn : m = n := by injection h3
      have hrec : q.dropLast ++ [m] = q := List.dropLast_append_getLast? m hl
      rw [← hrec, hd, hmn]
    · rw [if_neg hd] at h3; cases h3

theorem fsChildren_mem (fs : FS) (p : FsPath) (n : String) (k : NodeKind)
    (h : (n, k) ∈ fsChildren fs p) : (p ++ [n], k) ∈ fs := by
  induction fs with
  | nil => cases h
  | cons e rest ih =>
    obtain ⟨q, kk⟩ := e
    unfold fsChildren at h
    cases hc : childName p q with
    | none => rw [hc] at h; exact List.mem_cons_of_mem _ (ih h)
    | some m =>
      rw [hc] at h
      rcases List.mem_cons.mp h with h1 | h1
      · have he : q = p ++ [m] := childName_eq p q m hc
        have hn : n = m := congrArg Prod.fst h1
        have hk : k = kk := congrArg Prod.snd h1
        exact List.mem_cons.mpr (Or.inl (by rw [he, ← hn, ← hk]))
      · exact List.mem_cons_of_mem _ (ih h1)

theorem append_singleton_inj {l1 l2 : List String} {a b : String}
    (h : l1 ++ [a] = l2 ++ [b]) : l1 = l2 ∧ a = b := by
  have hlen : l1.length = l2.length := by
    have := congrArg List.length h
    simp at this
    exact this
  obtain ⟨h1, h2⟩ := List.append_inj h hlen
  exact ⟨h1, by injection h2⟩

/-! ### Lemmas about the per-entry loop of `process_directory` -/

theorem processEntry_lookup_ne (flt : Faults) (source dest : FsPath) (rm : Bool)
    (acc : FS × List FsPath) (e : String × NodeKind) (q : FsPath)
    (h1 : source ++ [e.1] ≠ q) (h2 : dest ++ [e.1] ≠ q) :
    fsLookup (processEntry flt source dest rm acc e).1 q = fsLookup acc.1 q := by
  unfold processEntry
  by_cases hft : source ++ [e.1] ∈ flt.fileTypeFails
  · simp [hft]
  · by_cases hf : e.2 = NodeKind.file
    · by_cases hcp : source ++ [e.1] ∈ flt.copyFails
      · simp [hft, hf, copy, hcp]
      · cases rm with
        | false =>
          simp [hft, hf, copy, hcp]
          exact fsLookup_fsWrite_ne _ _ _ (fun hx => h2 hx.symm)
        | true =>
          by_cases hrf : source ++ [e.1] ∈ flt.removeFileFails
          · simp [hft, hf, copy, hcp, remove_file, hrf]
            exact fsLookup_fsWrite_ne _ _ _ (fun hx => h2 hx.symm)
          · simp [hft, hf, copy, hcp, remove_file, hrf]
            rw [fsLookup_fsErase_ne _ _ _ (fun hx => h1 hx.symm)]
            exact fsLookup_fsWrite_ne _ _ _ (fun hx => h2 hx.symm)
    · simp [hft, hf]

theorem processEntries_lookup (flt : Faults) (source dest : FsPath) (rm : Bool)
    (es : List (String × NodeKind)) (acc : FS × List FsPath) (q : FsPath)
    (h : ∀ e ∈ es, source ++ [e.1] ≠ q ∧ dest ++ [e.1] ≠ q) :
    fsLookup (es.foldl (processEntry flt source dest rm) acc).1 q = fsLookup acc.1 q := by
  induction es generalizing acc with
  | nil => rfl
  | cons e rest ih =>
    rw [List.foldl_cons]
    rw [ih _ (fun x hx => h x (List.mem_cons_of_mem _ hx))]
    exact processEntry_lookup_ne flt source dest rm acc e q
      (h e (List.mem_cons_self _ _)).1 (h e (List.mem_cons_self _ _)).2

theorem processEntry_dirs (flt : Faults) (source dest : FsPath) (rm : Bool)
    (acc : FS × List FsPath) (e : String × NodeKind) :
    ∃ u, (processEntry flt source dest rm acc e).2 = acc.2 ++ u := by
  unfold processEntry
  by_cases hft : source ++ [e.1] ∈ flt.fileTypeFails
  · exact ⟨[], by simp [hft]⟩
  · by_cases hf : e.2 = NodeKind.file
    · by_cases hcp : source ++ [e.1] ∈ flt.copyFails
      · exact ⟨[], by simp [hft, hf, copy, hcp]⟩
      · cases rm with
        | false => exact ⟨[], by simp [hft, hf, copy, hcp]⟩
        | true =>
          by_cases hrf : source ++ [e.1] ∈ flt.removeFileFails
          · exact ⟨[], by simp [hft, hf, copy, hcp, remove_file, hrf]⟩
          · exact ⟨[], by simp [hft, hf, copy, hcp, remove_file, hrf]⟩
    · exact ⟨[source ++ [e.1]], by simp [hft, hf]⟩

theorem processEntries_dirs (flt : Faults) (source dest : FsPath) (rm : Bool)
    (es : List (String × NodeKind)) (acc : FS × List FsPath) :
    ∃ t, (es.foldl (processEntry flt source dest rm) acc).2 = acc.2 ++ t := by
  induction es generalizing acc with
  | nil => exact ⟨[], by simp⟩
  | cons e rest ih =>
    rw [List.foldl_cons]
    obtain ⟨t, ht⟩ := ih (processEntry flt source dest rm acc e)
    obtain ⟨u, hu⟩ := processEntry_dirs flt source dest rm acc e
    exact ⟨u ++ t, by rw [ht, hu, List.append_assoc]⟩

/-! ### The scheduler invariant of the dispatch loop -/

theorem getLast?_none_eq_nil {α : Type} (l : List α) (h : l.getLast? = none) :
    l = [] := by
  cases l with
  | nil => rfl
  | cons a as =>
    exfalso
    induction as generalizing a with
    | nil => rw [List.getLast?_singleton] at h; cases h
    | cons b bs ih => rw [List.getLast?_cons_cons] at h; exact ih b h

/-- The invariant maintained at the top of every iteration of the dispatch
loop: one `JoinSet` slot is free, the peak `JoinSet` size stays within
`batch`, and the already-dispatched tasks together with the queued ones are a
permutation of everything merged into the queue so far. -/
def schedInv (batch : Nat) (st : LoopState) : Prop :=
  st.inflight.length + 1 ≤ batch ∧ st.maxIn ≤ batch ∧
    (st.dispatched ++ st.dirs).Perm st.merged

theorem loopIter_schedInv (flt : Faults) (bs bd : FsPath) (del : Bool) (batch : Nat)
    (stp : LoopState) (dir : FsPath) (st2 : LoopState)
    (hlen : stp.inflight.length + 1 ≤ batch)
    (hmax : stp.maxIn ≤ batch)
    (hperm : (stp.dispatched ++ (stp.dirs ++ [dir])).Perm stp.merged)
    (hit : loopIter flt bs bd del batch stp dir = some st2) :
    schedInv batch st2 := by
  have hkey : ∀ nd : List FsPath,
      ((stp.dispatched ++ [dir]) ++ (stp.dirs ++ nd)).Perm (stp.merged ++ nd) := by
    intro nd
    have hmid : ((stp.dispatched ++ [dir]) ++ stp.dirs).Perm
        (stp.dispatched ++ (stp.dirs ++ [dir])) := by
      rw [List.append_assoc]
      exact List.Perm.append_left stp.dispatched List.perm_append_comm
    have hstep : (((stp.dispatched ++ [dir]) ++ stp.dirs) ++ nd).Perm (stp.merged ++ nd) :=
      List.Perm.trans (List.Perm.append_right nd hmid) (List.Perm.append_right nd hperm)
    have hassoc : ((stp.dispatched ++ [dir]) ++ stp.dirs) ++ nd
        = (stp.dispatched ++ [dir]) ++ (stp.dirs ++ nd) := List.append_assoc _ _ _
    rw [← hassoc]
    exact hstep
  have hkey0 : ((stp.dispatched ++ [dir]) ++ stp.dirs).Perm stp.merged := by
    have h0 := hkey []
    simpa using h0
  have hlapp : ∀ res : Option (List FsPath),
      (stp.inflight ++ [res]).length = stp.inflight.length + 1 := by
    intro res; simp
  unfold loopIter at hit
  split at hit
  · cases hit
  next dest hmd =>
    split at hit
    next fs1 res hsp =>
      split at hit
      · -- pool full: join one pending result
        split at hit
        next hhd =>
          -- head? = none: impossible, the JoinSet just received an element
          exfalso
          cases hli : stp.inflight with
          | nil => rw [hli] at hhd; simp at hhd
          | cons a l => rw [hli] at hhd; simp at hhd
        next nd hhd =>
          -- joined a completed task: merge its subdirectories
          cases hit
          refine ⟨?_, ?_, ?_⟩
          · simp only [List.length_tail, hlapp res]
            omega
          · exact max_le hmax (by rw [hlapp res]; exact hlen)
          · exact hkey nd
        next hhd =>
          -- joined a panicked task: only the JoinError is logged
          cases hit
          refine ⟨?_, ?_, ?_⟩
          · simp only [List.length_tail, hlapp res]
            omega
          · exact max_le hmax (by rw [hlapp res]; exact hlen)
          · exact hkey0
      next hge =>
        -- pool not full: no join
        cases hit
        rw [ge_iff_le, not_le, hlapp res] at hge
        refine ⟨?_, ?_, ?_⟩
        · rw [hlapp res]; omega
        · exact max_le hmax (by rw [hlapp res]; omega)
        · exact hkey0

theorem mainLoop_schedInv (flt : Faults) (bs bd : FsPath) (del : Bool) (batch : Nat) :
    ∀ (fuel : Nat) (st st2 : LoopState), schedInv batch st →
      mainLoop flt bs bd del batch fuel st = some st2 →
      schedInv batch st2 ∧ st2.dirs = [] := by
  intro fuel
  induction fuel with
  | zero => intro st st2 _ h; cases h
  | succ fuel ih =>
    intro st st2 hInv h
    unfold mainLoop at h
    split at h
    · rename_i hpop
      cases h
      exact ⟨hInv, getLast?_none_eq_nil _ hpop⟩
    · rename_i dir hpop
      split at h
      · cases h
      · rename_i stm hit
        obtain ⟨h1, h2, h3⟩ := hInv
        have hdirs : st.dirs.dropLast ++ [dir] = st.dirs :=
          List.dropLast_append_getLast? dir hpop
        have hInv2 : schedInv batch stm := by
          refine loopIter_schedInv flt bs bd del batch
            { st with dirs := st.dirs.dropLast } dir stm h1 h2 ?_ hit
          show (st.dispatched ++ (st.dirs.dropLast ++ [dir])).Perm st.merged
          rw [hdirs]
          exact h3
        exact ih stm st2 hInv2 h

/-! ### Behaviour of one loop iteration when the listing fails -/

theorem loopIter_fs_of_read_dir_fail (flt : Faults) (bs bd : FsPath) (del : Bool)
    (batch : Nat) (st : LoopState) (dir : FsPath) (st2 : LoopState)
    (hrd : read_dir flt st.fs dir = none)
    (hit : loopIter flt bs bd del batch st dir = some st2) :
    st2.fs = st.fs := by
  have hpd : ∀ dest, process_directory flt st.fs dir dest del = none := by
    intro dest
    unfold process_directory
    rw [hrd]
  have hsp : ∀ dest, spawnTask flt st.fs dir dest del = (st.fs, none) := by
    intro dest
    unfold spawnTask
    rw [hpd dest]
  unfold loopIter at hit
  split at hit
  · cases hit
  next dest hmd =>
    split at hit
    next fs1 res hspn =>
      rw [hsp dest] at hspn
      have hfs1 : st.fs = fs1 := congrArg Prod.fst hspn
      split at hit
      · split at hit
        next hhd => cases hit; exact hfs1.symm
        next nd hhd => cases hit; exact hfs1.symm
        next hhd => cases hit; exact hfs1.symm
      next hge =>
        cases hit
        exact hfs1.symm


/-! ### Claims settled by concrete runs -/

/-- Source tree for the C1 run: `s/d/f`, where the copy of `f` is made to
fail; deletion enabled, concurrency 1. -/
def fsC1 : FS :=
  [(["s"], NodeKind.dir), (["s", "d"], NodeKind.dir), (["s", "d", "f"], NodeKind.file)]

/-- Faults for the C1 run: copying `s/d/f` fails. -/
def fltC1 : Faults := ⟨[], [], [["s", "d", "f"]], [], [], []⟩

/-- Claim C1: when deletion is enabled, a source directory containing a file
whose copy or removal failed is never removed, nor are its ancestors.  The
code violates this: after the traversal `main` runs `remove_dir_all` on the
source root unconditionally (src/main.rs lines 153-156), so with the copy of
`s/d/f` failing, directory `s/d` (which still holds the uncopied file) and
its ancestor `s` are both removed, and `f` survives at neither the source
nor the destination. -/
theorem c1_dir_with_failed_copy_is_removed :
    (runMain fltC1 fsC1 ["s"] ["t"] true 1 10).map
      (fun r => (fsLookup r.fs ["s", "d"], fsLookup r.fs ["s"],
                 fsLookup r.fs ["s", "d", "f"], fsLookup r.fs ["t", "d", "f"]))
      = some (none, none, none, none) := by decide

/-- Source tree for the C2 run: `s/a/b`, with the default concurrency 10. -/
def fsC2 : FS :=
  [(["s"], NodeKind.dir), (["s", "a"], NodeKind.dir), (["s", "a", "b"], NodeKind.dir)]

/-- Claim C2: the dispatch loop continues while the queue or the in-flight
set is non-empty, and every reported subdirectory is merged into the queue
before the run completes.  The code violates this: the loop is
`while let Some(dir) = dirs.pop()` (src/main.rs line 132), which exits as
soon as the queue is empty; results are only joined when
`set.len() >= batch_size`.  Here the run completes with one invocation still
in flight, its reported subdirectory `s/a/b` is never dispatched, and
`t/a/b` is never created. -/
theorem c2_loop_exits_with_inflight_work :
    (runMain noFaults fsC2 ["s"] ["t"] false 10 20).map
      (fun r => (r.leftover, r.dispatched,
                 fsLookup r.fs ["s", "a", "b"], fsLookup r.fs ["t", "a", "b"]))
      = some (1, [["s", "a"]], some NodeKind.dir, none) := by decide

/-- Source tree for the C3 run: `s/a/b/f`, default concurrency 10, deletion
disabled, no faults. -/
def fsC3 : FS :=
  [(["s"], NodeKind.dir), (["s", "a"], NodeKind.dir), (["s", "a", "b"], NodeKind.dir),
   (["s", "a", "b", "f"], NodeKind.file)]

/-- Claim C3: with deletion disabled the destination tree's file set equals
the source tree's.  The code violates this for any tree of depth three or
more when the queue empties before `set.len()` reaches the concurrency
limit: the task for `s/a` is never joined, `s/a/b` is never processed, and
`f` is never copied — the run succeeds with `s/a/b/f` present in the source
but `t/a/b/f` absent from the destination (the source is indeed left
unmodified). -/
theorem c3_nested_file_never_copied :
    (runMain noFaults fsC3 ["s"] ["t"] false 10 20).map
      (fun r => (fsLookup r.fs ["s", "a", "b", "f"], fsLookup r.fs ["t", "a", "b", "f"]))
      = some (some NodeKind.file, none) := by decide

/-- Source tree for the C5 counterexample: `s/d`, both directories. -/
def fsC5 : FS := [(["s"], NodeKind.dir), (["s", "d"], NodeKind.dir)]

/-- Faults for the C5 counterexample, listing half: listing `s/d` fails. -/
def fltC5 : Faults := ⟨[["s", "d"]], [], [], [], [], []⟩

/-- Faults for the C5 counterexample, creation half: creating the destination
directory `t/d` fails. -/
def fltC5c : Faults := ⟨[], [], [], [], [], [["t", "d"]]⟩

/-- Claim C5 counterexample: a failure to list a directory, or to create a
destination directory the Processor needs, is claimed to abort the whole run
for every directory, "not only the root".  Both halves fail on non-root
directories: listing the non-root `s/d` fails, yet the run terminates
successfully, and likewise when creating the non-root destination `t/d`
fails — in both cases the spawned task's `unwrap` panic becomes a
`JoinError` that `main` merely logs (src/main.rs lines 145-147). -/
theorem c5_counterexample :
    fltC5.readDirFails.contains ["s", "d"] = true ∧
    (runMain fltC5 fsC5 ["s"] ["t"] false 1 10).isSome = true ∧
    fltC5c.createDirAllFails.contains ["t", "d"] = true ∧
    (runMain fltC5c fsC5 ["s"] ["t"] false 1 10).isSome = true := by decide

/-- Faults for the C5 witness, listing half: listing the root `s` fails. -/
def fltC5w : Faults := ⟨[["s"]], [], [], [], [], []⟩

/-- Faults for the C5 witness, creation half: creating the destination root
`t` fails. -/
def fltC5w2 : Faults := ⟨[], [], [], [], [], [["t"]]⟩

/-- Claim C5 (amended): a listing failure, or a failure to create the
destination directory, is fatal only in the root (seed) invocation of
`process_directory`, whose error the seed call propagates with `?` so the
run terminates with a non-zero outcome; in a spawned (non-root) invocation
either failure only panics that directory's task, the `JoinError` is logged,
and the run continues and can terminate successfully. -/
theorem c5_amended_root_failure_fatal (flt : Faults) (fs0 : FS)
    (base_source base_dest : FsPath) (delete_source : Bool) (batch fuel : Nat)
    (h : flt.readDirFails.contains base_source = true ∨
      flt.createDirAllFails.contains base_dest = true) :
    runMain flt fs0 base_source base_dest delete_source batch fuel = none := by
  have hpd : process_directory flt fs0 base_source base_dest delete_source = none := by
    rcases h with h | h
    · have hrd : read_dir flt fs0 base_source = none := by
        unfold read_dir
        rw [h]
        rfl
      unfold process_directory
      rw [hrd]
    · have hcd : create_dir_all flt fs0 base_dest = none := by
        unfold create_dir_all
        rw [h]
        rfl
      unfold process_directory
      rw [hcd]
      cases read_dir flt fs0 base_source with
      | none => rfl
      | some entries => rfl
  unfold runMain
  split
  · rfl
  · rw [hpd]

theorem c5_amended_witness :
    (fltC5w.readDirFails.contains ["s"] = true ∨
      fltC5w.createDirAllFails.contains ["t"] = true) ∧
    runMain fltC5w [(["s"], NodeKind.dir)] ["s"] ["t"] false 1 5 = none ∧
    (fltC5w2.readDirFails.contains ["s"] = true ∨
      fltC5w2.createDirAllFails.contains ["t"] = true) ∧
    runMain fltC5w2 [(["s"], NodeKind.dir)] ["s"] ["t"] false 1 5 = none :=
  ⟨Or.inl (by decide),
   c5_amended_root_failure_fatal fltC5w [(["s"], NodeKind.dir)]
     ["s"] ["t"] false 1 5 (Or.inl (by decide)),
   Or.inr (by decide),
   c5_amended_root_failure_fatal fltC5w2 [(["s"], NodeKind.dir)]
     ["s"] ["t"] false 1 5 (Or.inr (by decide))⟩

/-- Source tree for the C7 runs: `s/f`, deletion enabled, concurrency 1. -/
def fsC7 : FS := [(["s"], NodeKind.dir), (["s", "f"], NodeKind.file)]

/-- Faults for the C7 counterexample: `remove_dir_all` on `s` fails. -/
def fltC7 : Faults := ⟨[], [], [], [], [["s"]], []⟩

/-- Claim C7 counterexample: the final removal of the source root is claimed
to be best-effort (failure logged, run still succeeds).  The code writes
`tokio::fs::remove_dir_all(base_source).await?` (src/main.rs line 155): on
the very same input the run succeeds without the fault and terminates with a
non-zero outcome when the removal fails. -/
theorem c7_counterexample :
    runMain fltC7 fsC7 ["s"] ["t"] true 1 10 = none ∧
    (runMain noFaults fsC7 ["s"] ["t"] true 1 10).isSome = true := by decide

/-- Claim C7 (amended): when deletion is enabled and the final
`remove_dir_all` of the source root fails, the error propagates out of
`main` via `?` and the run terminates with a non-zero outcome (it is fatal,
not logged-and-ignored). -/
theorem c7_amended_final_removal_failure_fatal (flt : Faults) (fs0 : FS)
    (base_source base_dest : FsPath) (batch fuel : Nat)
    (h : flt.removeDirAllFails.contains base_source = true) :
    runMain flt fs0 base_source base_dest true batch fuel = none := by
  have hrm : ∀ fs : FS, remove_dir_all flt fs base_source = none := by
    intro fs
    unfold remove_dir_all
    rw [h]
    rfl
  unfold runMain
  split
  · rfl
  · split
    · rfl
    · split
      · rfl
      · rw [if_pos rfl, hrm]

theorem c7_amended_witness :
    fltC7.removeDirAllFails.contains ["s"] = true ∧
    runMain fltC7 fsC7 ["s"] ["t"] true 1 10 = none :=
  ⟨by decide,
   c7_amended_final_removal_failure_fatal fltC7 fsC7 ["s"] ["t"] 1 10 (by decide)⟩

/-- Claim C9: for every discovered source path that is a descendant of the
source root, the mapped destination path is exactly the destination root
followed by the path's suffix relative to the source root — the pure
computation `base_dest.join(dir.strip_prefix(&base_source).unwrap())` of
src/main.rs line 133, with no side effects. -/
theorem c9_path_mapper_rebases (base_source base_dest p rel : FsPath)
    (h : p = base_source ++ rel) :
    map_dest base_source base_dest p = some (base_dest ++ rel) := by
  subst h
  unfold map_dest strip_prefix
  rw [if_pos]
  · rw [List.drop_left]
  · exact List.isPrefixOf_iff_prefix.mpr (List.prefix_append _ _)

theorem c9_witness :
    (["s", "a"] : FsPath) = ["s"] ++ ["a"] ∧
    map_dest ["s"] ["t"] ["s", "a"] = some (["t"] ++ ["a"]) :=
  ⟨by decide, c9_path_mapper_rebases ["s"] ["t"] ["s", "a"] ["a"] (by decide)⟩

/-! ### Per-entry facts used by claims C4 and C8 -/

theorem nodup_decomp_names {es1 es2 : List (String × NodeKind)} {n : String}
    {k : NodeKind} (hnod : ((es1 ++ (n, k) :: es2).map Prod.fst).Nodup) :
    (∀ e ∈ es1, e.1 ≠ n) ∧ (∀ e ∈ es2, e.1 ≠ n) := by
  rw [List.map_append, List.map_cons, List.nodup_append] at hnod
  obtain ⟨h1, h2, h3⟩ := hnod
  constructor
  · intro e he hx
    exact h3 (List.mem_map_of_mem Prod.fst he) (by rw [hx]; exact List.mem_cons_self _ _)
  · intro e he hx
    rw [List.nodup_cons] at h2
    exact h2.1 (List.mem_map.mpr ⟨e, he, hx⟩)

theorem read_dir_ok (flt : Faults) (fs : FS) (p : FsPath)
    (h1 : p ∉ flt.readDirFails) (h2 : fsLookup fs p = some NodeKind.dir) :
    read_dir flt fs p = some (fsChildren fs p) := by
  simp [read_dir, h1, h2]

theorem processEntry_other (flt : Faults) (source dest : FsPath) (rm : Bool)
    (acc : FS × List FsPath) (n : String)
    (hft : source ++ [n] ∉ flt.fileTypeFails) :
    processEntry flt source dest rm acc (n, NodeKind.other)
      = (acc.1, acc.2 ++ [source ++ [n]]) := by
  unfold processEntry
  simp [hft]

theorem processEntry_file_untouched (flt : Faults) (source dest : FsPath) (rm : Bool)
    (acc : FS × List FsPath) (n : String) (hds : dest ≠ source)
    (hft : source ++ [n] ∉ flt.fileTypeFails)
    (hcase : source ++ [n] ∈ flt.copyFails ∨ rm = false ∨
      source ++ [n] ∈ flt.removeFileFails) :
    fsLookup (processEntry flt source dest rm acc (n, NodeKind.file)).1 (source ++ [n])
      = fsLookup acc.1 (source ++ [n]) := by
  have hqd : source ++ [n] ≠ dest ++ [n] := fun hx => hds (append_singleton_inj hx).1.symm
  unfold processEntry
  rcases hcase with hcp | hrm | hrf
  · simp [hft, copy, hcp]
  · by_cases hcp : source ++ [n] ∈ flt.copyFails
    · simp [hft, copy, hcp]
    · subst hrm
      simp [hft, copy, hcp]
      exact fsLookup_fsWrite_ne _ _ _ hqd
  · by_cases hcp : source ++ [n] ∈ flt.copyFails
    · simp [hft, copy, hcp]
    · cases rm with
      | false =>
        simp [hft, copy, hcp]
        exact fsLookup_fsWrite_ne _ _ _ hqd
      | true =>
        simp [hft, copy, hcp, remove_file, hrf]
        exact fsLookup_fsWrite_ne _ _ _ hqd

theorem processEntry_file_deleted (flt : Faults) (source dest : FsPath)
    (acc : FS × List FsPath) (n : String)
    (hft : source ++ [n] ∉ flt.fileTypeFails)
    (hcp : source ++ [n] ∉ flt.copyFails)
    (hrf : source ++ [n] ∉ flt.removeFileFails) :
    fsLookup (processEntry flt source dest true acc (n, NodeKind.file)).1 (source ++ [n])
      = none := by
  unfold processEntry
  simp [hft, copy, hcp, remove_file, hrf]
  exact fsLookup_fsErase_self _ _

/-! ### Claims C4, C6, C8, C10 -/

/-- Source tree for the C4 counterexample: a symlink-like entry `s/ln`. -/
def fsC4 : FS := [(["s"], NodeKind.dir), (["s", "ln"], NodeKind.other)]

/-- Claim C4 counterexample: entries that are neither regular files nor
directories are claimed to be skipped with a logged warning and not recorded
in the returned subdirectory list.  The code records them: anything with
`is_file() == false` lands in the `directories` vector (src/main.rs lines
41-43), so processing `s` containing the non-file non-directory entry `s/ln`
returns `[s/ln]` as a subdirectory. -/
theorem c4_counterexample :
    fsLookup fsC4 ["s", "ln"] = some NodeKind.other ∧
    (process_directory noFaults fsC4 ["s"] ["t"] false).map (fun r => r.2)
      = some [["s", "ln"]] := by decide

/-- Claim C4 (amended): an entry that is neither a regular file nor a
directory is treated like a directory — it is not copied and not deleted
(its filesystem binding is untouched), and it is recorded in the returned
subdirectory list; only entries whose `file_type()` lookup fails are skipped
with a logged error. -/
theorem c4_amended_other_entry_recorded (flt : Faults) (fs : FS)
    (source dest : FsPath) (rm : Bool) (n : String)
    (hrdf : source ∉ flt.readDirFails)
    (hdir : fsLookup fs source = some NodeKind.dir)
    (hmem : (n, NodeKind.other) ∈ fsChildren fs source)
    (hft : source ++ [n] ∉ flt.fileTypeFails)
    (hnod : ((fsChildren fs source).map Prod.fst).Nodup)
    (hds : dest ≠ source)
    (hcd : dest ∉ flt.createDirAllFails) :
    ∃ r, process_directory flt fs source dest rm = some r ∧
      (source ++ [n]) ∈ r.2 ∧
      fsLookup r.1 (source ++ [n]) = fsLookup fs (source ++ [n]) := by
  obtain ⟨es1, es2, hes⟩ := List.append_of_mem hmem
  have hrd : read_dir flt fs source = some (fsChildren fs source) :=
    read_dir_ok flt fs source hrdf hdir
  rw [hes] at hnod
  obtain ⟨hn1, hn2⟩ := nodup_decomp_names hnod
  have hq : ∀ (e : String × NodeKind), e.1 ≠ n →
      source ++ [e.1] ≠ source ++ [n] ∧ dest ++ [e.1] ≠ source ++ [n] := by
    intro e hne
    exact ⟨fun hx => hne (append_singleton_inj hx).2,
           fun hx => hds (append_singleton_inj hx).1⟩
  obtain ⟨v, hv⟩ := fsLookup_isSome_of_mem fs (source ++ [n]) NodeKind.other
    (fsChildren_mem fs source n NodeKind.other hmem)
  refine ⟨(fsChildren fs source).foldl (processEntry flt source dest rm)
      (createDirs fs dest, []), ?_, ?_, ?_⟩
  · unfold process_directory
    rw [hrd, create_dir_all_ok flt fs dest hcd]
  · rw [hes, List.foldl_append, List.foldl_cons,
      processEntry_other flt source dest rm _ n hft]
    obtain ⟨t, ht⟩ := processEntries_dirs flt source dest rm es2
      ((List.foldl (processEntry flt source dest rm) (createDirs fs dest, []) es1).1,
       (List.foldl (processEntry flt source dest rm) (createDirs fs dest, []) es1).2
         ++ [source ++ [n]])
    rw [ht]
    simp
  · rw [hes, List.foldl_append, List.foldl_cons,
      processEntry_other flt source dest rm _ n hft]
    rw [processEntries_lookup flt source dest rm es2 _ _
      (fun e he => hq e (hn2 e he))]
    show fsLookup (List.foldl (processEntry flt source dest rm)
      (createDirs fs dest, []) es1).1 (source ++ [n]) = fsLookup fs (source ++ [n])
    rw [processEntries_lookup flt source dest rm es1 _ _
      (fun e he => hq e (hn1 e he))]
    show fsLookup (createDirs fs dest) (source ++ [n]) = fsLookup fs (source ++ [n])
    rw [createDirs_preserves fs dest (source ++ [n]) v hv, hv]

theorem c4_witness :
    (["s"] : FsPath) ∉ noFaults.readDirFails ∧
    fsLookup fsC4 ["s"] = some NodeKind.dir ∧
    ("ln", NodeKind.other) ∈ fsChildren fsC4 ["s"] ∧
    (["s", "ln"] : FsPath) ∉ noFaults.fileTypeFails ∧
    ((fsChildren fsC4 ["s"]).map Prod.fst).Nodup ∧
    (["t"] : FsPath) ≠ ["s"] ∧
    (["t"] : FsPath) ∉ noFaults.createDirAllFails ∧
    (∃ r, process_directory noFaults fsC4 ["s"] ["t"] false = some r ∧
      (["s", "ln"] : FsPath) ∈ r.2 ∧
      fsLookup r.1 ["s", "ln"] = fsLookup fsC4 ["s", "ln"]) :=
  ⟨by decide, by decide, by decide, by decide, by decide, by decide, by decide,
   c4_amended_other_entry_recorded noFaults fsC4 ["s"] ["t"] false "ln"
     (by decide) (by decide) (by decide) (by decide) (by decide) (by decide)
     (by decide)⟩

/-- Claim C8: within one `process_directory` invocation, for a regular file
entry: a failed copy leaves the source file untouched (it is never deleted);
the source file is deleted exactly when its copy succeeded, `remove_source`
is true and the removal itself succeeded (a removal failure, like a copy
failure, leaves the file in place); and per-file failures never abort the
invocation — it still returns `Ok` (src/main.rs lines 32-40). -/
theorem c8_per_file_handling (flt : Faults) (fs : FS) (source dest : FsPath)
    (rm : Bool) (n : String)
    (hrdf : source ∉ flt.readDirFails)
    (hdir : fsLookup fs source = some NodeKind.dir)
    (hmem : (n, NodeKind.file) ∈ fsChildren fs source)
    (hft : source ++ [n] ∉ flt.fileTypeFails)
    (hnod : ((fsChildren fs source).map Prod.fst).Nodup)
    (hds : dest ≠ source)
    (hcd : dest ∉ flt.createDirAllFails) :
    ∃ r, process_directory flt fs source dest rm = some r ∧
      ((source ++ [n] ∈ flt.copyFails ∨ rm = false ∨
          source ++ [n] ∈ flt.removeFileFails) →
        fsLookup r.1 (source ++ [n]) = fsLookup fs (source ++ [n])) ∧
      ((source ++ [n] ∉ flt.copyFails ∧ rm = true ∧
          source ++ [n] ∉ flt.removeFileFails) →
        fsLookup r.1 (source ++ [n]) = none) := by
  obtain ⟨es1, es2, hes⟩ := List.append_of_mem hmem
  have hrd : read_dir flt fs source = some (fsChildren fs source) :=
    read_dir_ok flt fs source hrdf hdir
  rw [hes] at hnod
  obtain ⟨hn1, hn2⟩ := nodup_decomp_names hnod
  have hq : ∀ (e : String × NodeKind), e.1 ≠ n →
      source ++ [e.1] ≠ source ++ [n] ∧ dest ++ [e.1] ≠ source ++ [n] := by
    intro e hne
    exact ⟨fun hx => hne (append_singleton_inj hx).2,
           fun hx => hds (append_singleton_inj hx).1⟩
  refine ⟨(fsChildren fs source).foldl (processEntry flt source dest rm)
      (createDirs fs dest, []), ?_, ?_, ?_⟩
  · unfold process_directory
    rw [hrd, create_dir_all_ok flt fs dest hcd]
  · intro hcase
    obtain ⟨v, hv⟩ := fsLookup_isSome_of_mem fs (source ++ [n]) NodeKind.file
      (fsChildren_mem fs source n NodeKind.file hmem)
    rw [hes, List.foldl_append, List.foldl_cons]
    rw [processEntries_lookup flt source dest rm es2 _ _
      (fun e he => hq e (hn2 e he))]
    rw [processEntry_file_untouched flt source dest rm _ n hds hft hcase]
    rw [processEntries_lookup flt source dest rm es1 _ _
      (fun e he => hq e (hn1 e he))]
    show fsLookup (createDirs fs dest) (source ++ [n]) = fsLookup fs (source ++ [n])
    rw [createDirs_preserves fs dest (source ++ [n]) v hv, hv]
  · rintro ⟨hcp, hrm, hrf⟩
    subst hrm
    rw [hes, List.foldl_append, List.foldl_cons]
    rw [processEntries_lookup flt source dest true es2 _ _
      (fun e he => hq e (hn2 e he))]
    exact processEntry_file_deleted flt source dest _ n hft hcp hrf

/-- Source tree for the C8 witness: `s/f`, with the copy of `s/f` failing
and deletion requested. -/
def fsC8 : FS := [(["s"], NodeKind.dir), (["s", "f"], NodeKind.file)]

/-- Faults for the C8 witness: copying `s/f` fails. -/
def fltC8 : Faults := ⟨[], [], [["s", "f"]], [], [], []⟩

theorem c8_witness :
    (["s"] : FsPath) ∉ fltC8.readDirFails ∧
    fsLookup fsC8 ["s"] = some NodeKind.dir ∧
    ("f", NodeKind.file) ∈ fsChildren fsC8 ["s"] ∧
    (["s", "f"] : FsPath) ∉ fltC8.fileTypeFails ∧
    ((fsChildren fsC8 ["s"]).map Prod.fst).Nodup ∧
    (["t"] : FsPath) ≠ ["s"] ∧
    (["t"] : FsPath) ∉ fltC8.createDirAllFails ∧
    (∃ r, process_directory fltC8 fsC8 ["s"] ["t"] true = some r ∧
      ((["s", "f"] ∈ fltC8.copyFails ∨ true = false ∨
          ["s", "f"] ∈ fltC8.removeFileFails) →
        fsLookup r.1 ["s", "f"] = fsLookup fsC8 ["s", "f"]) ∧
      ((["s", "f"] ∉ fltC8.copyFails ∧ true = true ∧
          ["s", "f"] ∉ fltC8.removeFileFails) →
        fsLookup r.1 ["s", "f"] = none)) :=
  ⟨by decide, by decide, by decide, by decide, by decide, by decide, by decide,
   c8_per_file_handling fltC8 fsC8 ["s"] ["t"] true "f"
     (by decide) (by decide) (by decide) (by decide) (by decide) (by decide)
     (by decide)⟩

/-- Claim C6: at every point during a run the number of concurrently active
`process_directory` invocations — the size of the `JoinSet` — never exceeds
the configured concurrency limit, for every limit at least 1 (the seed call
runs outside the pool), and every `DirectoryTask` is dispatched at most
once: the dispatched tasks are a permutation of the tasks merged into the
work queue, so each merged task is popped and spawned exactly once. -/
theorem c6_inflight_bounded_and_tasks_dispatched_once (flt : Faults) (fs0 : FS)
    (base_source base_dest : FsPath) (delete_source : Bool) (batch fuel : Nat)
    (r : RunResult) (hb : 1 ≤ batch)
    (h : runMain flt fs0 base_source base_dest delete_source batch fuel = some r) :
    r.maxIn ≤ batch ∧ r.dispatched.Perm r.merged := by
  unfold runMain at h
  split at h
  · cases h
  · split at h
    · cases h
    next fs1 dirs0 hpd =>
      split at h
      · cases h
      next st hml =>
        split at h
        · cases h
        next fs2 hrm =>
          cases h
          have hInv0 : schedInv batch ⟨fs1, dirs0, [], [], dirs0, 0⟩ := by
            refine ⟨by simp only [List.length_nil]; omega, Nat.zero_le batch, ?_⟩
            show (([] : List FsPath) ++ dirs0).Perm dirs0
            rw [List.nil_append]
          obtain ⟨⟨h1, h2, h3⟩, hde⟩ :=
            mainLoop_schedInv flt base_source base_dest delete_source batch fuel
              ⟨fs1, dirs0, [], [], dirs0, 0⟩ st hInv0 hml
          refine ⟨h2, ?_⟩
          have h4 := h3
          rw [hde] at h4
          simpa using h4

/-- The result of the C6 witness run: an empty source directory, limit 1. -/
def rC6 : RunResult := ⟨[(["s"], NodeKind.dir), (["t"], NodeKind.dir)], [], [], 0, 0⟩

theorem c6_witness :
    1 ≤ 1 ∧
    runMain noFaults [(["s"], NodeKind.dir)] ["s"] ["t"] false 1 1 = some rC6 ∧
    (rC6.maxIn ≤ 1 ∧ rC6.dispatched.Perm rC6.merged) :=
  ⟨by decide, by decide,
   c6_inflight_bounded_and_tasks_dispatched_once noFaults [(["s"], NodeKind.dir)]
     ["s"] ["t"] false 1 1 rC6 (by decide) (by decide)⟩

/-- Claim C10: if listing the source directory fails, `process_directory`
returns the error before `create_dir_all` runs (the `?` on `read_dir` at
src/main.rs line 21 precedes line 22), so on that error the invocation makes
no filesystem change: the loop iteration that spawned it ends with the
filesystem it started with — in particular the destination directory is not
created. -/
theorem c10_listing_failure_leaves_fs_unchanged (flt : Faults)
    (source dest bs bd : FsPath) (rm del : Bool) (batch : Nat)
    (st st2 : LoopState)
    (hrd : read_dir flt st.fs source = none)
    (hit : loopIter flt bs bd del batch st source = some st2) :
    process_directory flt st.fs source dest rm = none ∧ st2.fs = st.fs := by
  constructor
  · unfold process_directory
    rw [hrd]
  · exact loopIter_fs_of_read_dir_fail flt bs bd del batch st source st2 hrd hit

/-- Faults for the C10 witness: listing `x` fails. -/
def fltC10 : Faults := ⟨[["x"]], [], [], [], [], []⟩

/-- Loop state for the C10 witness, about to process directory `x`. -/
def stC10 : LoopState := ⟨[(["s"], NodeKind.dir)], [], [], [], [], 0⟩

/-- The state after the C10 witness iteration: the panicked task is pending
in the JoinSet and the filesystem is unchanged. -/
def st2C10 : LoopState := ⟨[(["s"], NodeKind.dir)], [], [none], [["x"]], [], 1⟩

theorem c10_witness :
    read_dir fltC10 stC10.fs ["x"] = none ∧
    loopIter fltC10 [] ["t"] false 2 stC10 ["x"] = some st2C10 ∧
    (process_directory fltC10 stC10.fs ["x"] ["t", "x"] false = none ∧
      st2C10.fs = stC10.fs) :=
  ⟨by decide, by decide,
   c10_listing_failure_leaves_fs_unchanged fltC10 ["x"] ["t", "x"] [] ["t"]
     false false 2 stC10 st2C10 (by decide) (by decide)⟩
